import Mathlib

/-!
# Verification of `tools/generate_branding.py` (flow-cli)

Shallow embedding of the branding-generation script.  The script is a linear
sequence of file-system and text-substitution steps; we embed:

* the pure string derivations of `main` (main color normalization, app name
  default, package identifier),
* the `pubspec.yaml` manipulation (`generate_pubspec_assets`,
  `update_pubspec`) over a structured manifest value,
* the iOS `Info.plist` patch (`update_ios_config`) over the list of
  `<key>…</key><string>…</string>` entries the regexes operate on,
* the asset relocation (`move_assets_to_flavor`) over a file system modelled
  as a list of `(resource-root, entry-name)` pairs, and
* the whole `main` workflow (`runMain`) as a function from an environment
  (CLI arguments, config contents, image dimensions, external-command
  outcomes) and an initial state to an outcome (exit code, final state,
  whether the cleanup step ran, which verification diagnostics were logged).

Machine integers do not occur (image dimensions are unbounded in the
script); fallible steps return `Except`.
-/

namespace Branding

/-! ## String derivations of `main` (lines 385-388) -/

/-- Python `s.lstrip` with argument `"#"`: drop every leading hash character. -/
def lstripHash (s : String) : String := ⟨s.data.dropWhile (· == '#')⟩

/-- In `main`, line 386: the main color is the hash character prepended to the
`mainColor` config value (default empty) stripped of its leading hashes.
The `mainColor` config field is `none` exactly when the key is absent. -/
def resolveMainColor (mainColorField : Option String) : String :=
  "#" ++ lstripHash (mainColorField.getD "")

/-- Python `str.capitalize()` restricted to ASCII text: the first character is
upper-cased and every remaining character is lower-cased. -/
def pyCapitalize (s : String) : String :=
  match s.data with
  | [] => ""
  | c :: cs => ⟨c.toUpper :: cs.map Char.toLower⟩

/-- In `main`, line 387: `app_name` is the `appName` config value, defaulting to
`flavor.capitalize()`.
The `appName` config field is `none` exactly when the key is absent. -/
def resolveAppName (appNameField : Option String) (flavor : String) : String :=
  appNameField.getD (pyCapitalize flavor)

/-- In `main`, line 388: `package_name = f"com.giolabs.{flavor}"`. -/
def derivePackageName (flavor : String) : String := "com.giolabs." ++ flavor

/-- Number of leading hash characters of a string. -/
def countLeadingHash (s : String) : Nat := (s.data.takeWhile (· == '#')).length

theorem data_append (s t : String) : (s ++ t).data = s.data ++ t.data := rfl

theorem takeWhile_dropWhile_nil {α : Type} (p : α → Bool) (l : List α) :
    (l.dropWhile p).takeWhile p = [] := by
  induction l with
  | nil => rfl
  | cons c cs ih =>
    by_cases h : p c
    · simpa [List.dropWhile_cons, h] using ih
    · simp [List.dropWhile_cons, List.takeWhile_cons, h]

/-- C4: the resolved main color has exactly one leading hash: `"1A2B3C"` is
stored as `"#1A2B3C"`, and for every configured value (with however many
leading hash characters) the result has exactly one leading hash. -/
theorem c4_main_color_normalized :
    resolveMainColor (some "1A2B3C") = "#1A2B3C" ∧
    ∀ s : String, countLeadingHash (resolveMainColor (some s)) = 1 := by
  refine ⟨rfl, fun s => ?_⟩
  show ((("#" ++ lstripHash s)).data.takeWhile (· == '#')).length = 1
  rw [data_append]
  show ((('#' :: (s.data.dropWhile (· == '#'))) : List Char).takeWhile (· == '#')).length = 1
  rw [List.takeWhile_cons]
  simp [takeWhile_dropWhile_nil]

/-- C5: the derived package identifier is exactly `"com.giolabs."` followed by
the flavor name verbatim; for flavor `"demo"` it is `"com.giolabs.demo"`. -/
theorem c5_package_identifier :
    derivePackageName "demo" = "com.giolabs.demo" ∧
    ∀ flavor : String, derivePackageName flavor = "com.giolabs." ++ flavor :=
  ⟨rfl, fun _ => rfl⟩

/-- C8 counterexample: for flavor `"aB"` with no `appName` key the code
produces `"Ab"` (Python `str.capitalize()` lower-cases the tail), not the
`"AB"` that "first character upper-cased" alone would give. -/
theorem c8_capitalize_cex :
    resolveAppName none "aB" = "Ab" ∧ resolveAppName none "aB" ≠ "AB" := by
  constructor
  · rfl
  · intro h
    have h2 : ("Ab" : String) = "AB" := by
      have h1 : resolveAppName none "aB" = "Ab" := rfl
      exact h1.symm.trans h
    exact absurd h2 (by decide)

/-- C8 amended: when the `appName` key is present its value is used unchanged;
when it is absent the display name defaults to Python `str.capitalize()` of the
flavor name, which upper-cases the first character AND lower-cases every
remaining character (and maps the empty string to itself). -/
theorem c8_app_name_default :
    (∀ (v flavor : String), resolveAppName (some v) flavor = v) ∧
    (∀ flavor : String, resolveAppName none flavor = pyCapitalize flavor) ∧
    (∀ (c : Char) (cs : List Char),
      pyCapitalize ⟨c :: cs⟩ = ⟨c.toUpper :: cs.map Char.toLower⟩) ∧
    pyCapitalize "" = "" :=
  ⟨fun _ _ => rfl, fun _ => rfl, fun _ _ => rfl, rfl⟩

/-! ## The shared manifest (`pubspec.yaml`)

`ruamel` yields nested mappings/sequences; the script touches three parts of
the document: the `flutter.assets` sequence (a list of path strings), and the
`flutter_launcher_icons` / `flutter_native_splash` mappings.  A mapping is
modelled as an association list of key/value pairs in document order; a key
absent from the document is identified with an empty mapping / sequence,
matching the `setdefault` calls that create them on demand. -/

/-- A YAML value as used in the two configuration blocks. -/
inductive Val : Type where
  | s (v : String)
  | b (v : Bool)
  | n (v : Nat)
  | dict (d : List (String × Val))
deriving Repr

/-- Python `d[k] = v` on a `ruamel` mapping: an existing key keeps its
position (every entry holding the key is rewritten), a new key is appended. -/
def setKey (d : List (String × Val)) (k : String) (v : Val) : List (String × Val) :=
  if d.any (fun p => p.1 == k) then
    d.map (fun p => if p.1 == k then (k, v) else p)
  else d ++ [(k, v)]

/-- Python `dict.update`: assign every key of `upd` in order. -/
def dictUpdate (d upd : List (String × Val)) : List (String × Val) :=
  upd.foldl (fun acc p => setKey acc p.1 p.2) d

/-- Key lookup (first entry holding the key). -/
def getVal (d : List (String × Val)) (k : String) : Option Val :=
  ((d.find? (fun p => p.1 == k)).map (fun p => p.2))

/-- The parts of `pubspec.yaml` the script reads or writes. -/
structure Pubspec where
  flutterAssets : List String
  flutterLauncherIcons : List (String × Val)
  flutterNativeSplash : List (String × Val)
deriving Repr

/-- From `generate_pubspec_assets`, lines 164-168: the three canonical flavor asset
paths. -/
def flavorAssetPaths (flavor : String) : List String :=
  ["assets/configs/" ++ flavor ++ "/icon.png",
   "assets/configs/" ++ flavor ++ "/splash.png",
   "assets/configs/" ++ flavor ++ "/config.json"]

/-- From `generate_pubspec_assets`, lines 170-177: `for asset in …: if asset not in
assets: assets.append(asset)`. -/
def addAssets (assets toAdd : List String) : List String :=
  toAdd.foldl (fun acc a => if a ∈ acc then acc else acc ++ [a]) assets

/-- Embeds `generate_pubspec_assets` (lines 153-181): merge the three canonical
flavor asset paths, then the extra asset paths declared in the per-flavor
`config.json`, into the asset list of the manifest. -/
def generate_pubspec_assets (flavor : String) (configAssets : List String)
    (data : Pubspec) : Pubspec :=
  { data with
    flutterAssets :=
      addAssets (addAssets data.flutterAssets (flavorAssetPaths flavor)) configAssets }

set_option linter.unusedVariables false in
/-- Embeds `update_pubspec` (lines 183-218).  The `has_splash` flag is accepted but
never read, exactly as in the source where the parameter is unused. -/
def update_pubspec (data : Pubspec) (main_color : String) (has_splash : Bool) : Pubspec :=
  { data with
    flutterLauncherIcons := dictUpdate data.flutterLauncherIcons
      [("android", .b true),
       ("ios", .b true),
       ("image_path_ios", .s "icon.png"),
       ("adaptive_icon_background", .s main_color),
       ("adaptive_icon_foreground", .s "icon.png"),
       ("remove_alpha_ios", .b true),
       ("min_sdk_android", .n 21),
       ("web", .b false),
       ("background_color_ios", .s main_color)],
    flutterNativeSplash := dictUpdate data.flutterNativeSplash
      [("color", .s main_color),
       ("image", .s "splash.png"),
       ("android_12", .dict [("image", .s "splash.png"),
                             ("icon_background_color", .s main_color)]),
       ("ios", .b true),
       ("android", .b true),
       ("web", .b false)] }

/-- From `generate_and_run`, lines 264-275: the `flutter_launcher_icons-<flavor>.yaml`
content (a fresh document, written whole: last-write-wins). -/
def iconsCfg (flavor main_color : String) : List (String × Val) :=
  [("android", .b true),
   ("ios", .b true),
   ("image_path", .s ("assets/configs/" ++ flavor ++ "/icon.png")),
   ("min_sdk_android", .n 21),
   ("adaptive_icon_background", .s main_color),
   ("adaptive_icon_foreground", .s ("assets/configs/" ++ flavor ++ "/icon.png")),
   ("background_color_ios", .s main_color),
   ("remove_alpha_ios", .b true)]

/-- From `generate_and_run`, lines 281-293: the `flutter_native_splash-<flavor>.yaml`
content. -/
def splashCfg (flavor main_color : String) : List (String × Val) :=
  [("color", .s main_color),
   ("image", .s ("assets/configs/" ++ flavor ++ "/splash.png")),
   ("android_12", .dict [("image", .s ("assets/configs/" ++ flavor ++ "/splash.png")),
                         ("icon_background_color", .s main_color)]),
   ("ios", .b true),
   ("android", .b true),
   ("web", .b false)]

/-! ### Lemmas about `addAssets` -/

theorem addAssets_nil (X : List String) : addAssets X [] = X := rfl

theorem addAssets_cons (X : List String) (l : String) (L : List String) :
    addAssets X (l :: L) = addAssets (if l ∈ X then X else X ++ [l]) L := rfl

theorem mem_addAssets {a : String} :
    ∀ (L X : List String), a ∈ addAssets X L ↔ a ∈ X ∨ a ∈ L := by
  intro L
  induction L with
  | nil => intro X; simp [addAssets_nil]
  | cons l L ih =>
    intro X
    rw [addAssets_cons]
    by_cases h : l ∈ X
    · rw [if_pos h, ih]
      simp only [List.mem_cons]
      constructor
      · rintro (hx | hl)
        · exact Or.inl hx
        · exact Or.inr (Or.inr hl)
      · rintro (hx | rfl | hl)
        · exact Or.inl hx
        · exact Or.inl h
        · exact Or.inr hl
    · rw [if_neg h, ih]
      simp only [List.mem_append, List.mem_singleton, List.mem_cons]
      tauto

theorem addAssets_eq_self (X L : List String) (h : ∀ a ∈ L, a ∈ X) :
    addAssets X L = X := by
  induction L with
  | nil => rfl
  | cons l L ih =>
    rw [addAssets_cons, if_pos (h l (List.mem_cons_self l L))]
    exact ih fun a ha => h a (List.mem_cons_of_mem l ha)

theorem prefix_addAssets : ∀ (L X : List String), X <+: addAssets X L := by
  intro L
  induction L with
  | nil => intro X; exact List.prefix_refl X
  | cons l L ih =>
    intro X
    rw [addAssets_cons]
    by_cases h : l ∈ X
    · rw [if_pos h]; exact ih X
    · rw [if_neg h]
      exact List.IsPrefix.trans (List.prefix_append X [l]) (ih (X ++ [l]))

theorem count_addAssets (a : String) :
    ∀ (L X : List String), a ∈ X → (addAssets X L).count a = X.count a := by
  intro L
  induction L with
  | nil => intro X _; rfl
  | cons l L ih =>
    intro X h
    rw [addAssets_cons]
    by_cases hl : l ∈ X
    · rw [if_pos hl]; exact ih X h
    · rw [if_neg hl]
      have hne : a ≠ l := fun he => hl (he ▸ h)
      rw [ih (X ++ [l]) (List.mem_append_left _ h), List.count_append]
      have h0 : ([l] : List String).count a = 0 := by
        rw [List.count_eq_zero]
        simp [hne]
      omega

/-- C3: the manifest asset merge is idempotent (applying it twice gives the
same manifest as applying it once), an asset path already present is never
appended again (its multiplicity is unchanged), and the pre-existing entries
stay, in order, as a prefix of the result. -/
theorem c3_asset_merge_idempotent (data : Pubspec) (flavor : String)
    (configAssets : List String) :
    generate_pubspec_assets flavor configAssets
        (generate_pubspec_assets flavor configAssets data) =
      generate_pubspec_assets flavor configAssets data ∧
    (∀ a ∈ data.flutterAssets,
      (generate_pubspec_assets flavor configAssets data).flutterAssets.count a =
        data.flutterAssets.count a) ∧
    data.flutterAssets <+:
      (generate_pubspec_assets flavor configAssets data).flutterAssets := by
  refine ⟨?_, ?_, ?_⟩
  · simp only [generate_pubspec_assets]
    congr 1
    have hF : ∀ x ∈ flavorAssetPaths flavor,
        x ∈ addAssets (addAssets data.flutterAssets (flavorAssetPaths flavor)) configAssets := by
      intro x hx
      exact (mem_addAssets _ _).mpr (Or.inl ((mem_addAssets _ _).mpr (Or.inr hx)))
    rw [addAssets_eq_self _ _ hF]
    have hC : ∀ x ∈ configAssets,
        x ∈ addAssets (addAssets data.flutterAssets (flavorAssetPaths flavor)) configAssets := by
      intro x hx
      exact (mem_addAssets _ _).mpr (Or.inr hx)
    exact addAssets_eq_self _ _ hC
  · intro a ha
    simp only [generate_pubspec_assets]
    rw [count_addAssets a _ _ ((mem_addAssets _ _).mpr (Or.inl ha)),
      count_addAssets a _ _ ha]
  · simp only [generate_pubspec_assets]
    exact List.IsPrefix.trans (prefix_addAssets _ _) (prefix_addAssets _ _)

/-- C3 witness: a concrete manifest already containing
`assets/configs/demo/icon.png`. -/
theorem c3_asset_merge_idempotent_witness :
    ("assets/configs/demo/icon.png" ∈
      (⟨["assets/configs/demo/icon.png"], [], []⟩ : Pubspec).flutterAssets) ∧
    (generate_pubspec_assets "demo" ["assets/extra.png"]
        (generate_pubspec_assets "demo" ["assets/extra.png"]
          ⟨["assets/configs/demo/icon.png"], [], []⟩) =
      generate_pubspec_assets "demo" ["assets/extra.png"]
        ⟨["assets/configs/demo/icon.png"], [], []⟩) ∧
    ((generate_pubspec_assets "demo" ["assets/extra.png"]
        ⟨["assets/configs/demo/icon.png"], [], []⟩).flutterAssets.count
          "assets/configs/demo/icon.png" =
      (⟨["assets/configs/demo/icon.png"], [], []⟩ : Pubspec).flutterAssets.count
        "assets/configs/demo/icon.png") := by
  refine ⟨by decide, (c3_asset_merge_idempotent _ "demo" _).1, ?_⟩
  exact (c3_asset_merge_idempotent
    ⟨["assets/configs/demo/icon.png"], [], []⟩ "demo" ["assets/extra.png"]).2.1
    "assets/configs/demo/icon.png" (by decide)

/-- C9: `update_pubspec` never reads its staged-splash flag; the two runs are
identical manifests. -/
theorem c9_update_pubspec_flag_independent (data : Pubspec) (main_color : String) :
    update_pubspec data main_color true = update_pubspec data main_color false := rfl

/-! ### Lemmas about `setKey` / `dictUpdate` lookups -/

theorem find?_map_assign (d : List (String × Val)) (k : String) (v : Val) :
    ((d.map fun p => if p.1 == k then (k, v) else p).find? fun p => p.1 == k) =
      if d.any (fun p => p.1 == k) then some (k, v) else none := by
  induction d with
  | nil => rfl
  | cons p rest ih =>
    rw [List.map_cons]
    by_cases hp : p.1 = k
    · have hb : (p.1 == k) = true := by simp [hp]
      rw [if_pos hb, List.find?_cons_of_pos _ (by simp), List.any_cons, hb,
        Bool.true_or, if_pos rfl]
    · have hb : (p.1 == k) = false := by simp [hp]
      rw [if_neg (by simp [hp]), List.find?_cons_of_neg _ (by simp [hp]), ih,
        List.any_cons, hb, Bool.false_or]

theorem find?_map_assign_ne (d : List (String × Val)) (k : String) (v : Val)
    (k1 : String) (h : k ≠ k1) :
    ((d.map fun p => if p.1 == k then (k, v) else p).find? fun p => p.1 == k1) =
      d.find? fun p => p.1 == k1 := by
  induction d with
  | nil => rfl
  | cons p rest ih =>
    rw [List.map_cons]
    by_cases hp : p.1 = k
    · have hpk1 : ¬ p.1 = k1 := fun he => h (hp ▸ he)
      rw [if_pos (by simp [hp]), List.find?_cons_of_neg _ (by simp [h]), ih,
        List.find?_cons_of_neg _ (by simp [hpk1])]
    · rw [if_neg (by simp [hp])]
      by_cases hpk1 : p.1 = k1
      · rw [List.find?_cons_of_pos _ (by simp [hpk1]),
          List.find?_cons_of_pos _ (by simp [hpk1])]
      · rw [List.find?_cons_of_neg _ (by simp [hpk1]),
          List.find?_cons_of_neg _ (by simp [hpk1]), ih]

theorem find?_append_of_none {α : Type} {p : α → Bool} {l1 : List α}
    (h : l1.find? p = none) (l2 : List α) : (l1 ++ l2).find? p = l2.find? p := by
  induction l1 with
  | nil => rfl
  | cons a l ih =>
    rw [List.find?_cons] at h
    rcases ha : p a with _ | _
    · rw [ha] at h
      simp only [cond_false] at h
      rw [List.cons_append, List.find?_cons_of_neg _ (by rw [ha]; simp)]
      exact ih h
    · rw [ha] at h
      simp at h

theorem getVal_setKey_self (d : List (String × Val)) (k : String) (v : Val) :
    getVal (setKey d k v) k = some v := by
  unfold setKey getVal
  by_cases h : (d.any fun p => p.1 == k) = true
  · rw [if_pos h, find?_map_assign, if_pos h]
    rfl
  · rw [if_neg h]
    have hnone : d.find? (fun p => p.1 == k) = none := by
      rw [List.find?_eq_none]
      intro x hx hpx
      exact h (List.any_eq_true.mpr ⟨x, hx, hpx⟩)
    rw [find?_append_of_none hnone]
    simp [List.find?_cons_of_pos]

theorem getVal_setKey_ne (d : List (String × Val)) (k1 : String) (v : Val)
    (k : String) (h : k1 ≠ k) : getVal (setKey d k1 v) k = getVal d k := by
  unfold setKey getVal
  by_cases ha : (d.any fun p => p.1 == k1) = true
  · rw [if_pos ha, find?_map_assign_ne d k1 v k h]
  · rw [if_neg ha]
    cases hf : d.find? (fun p => p.1 == k) with
    | some q =>
      have hq : (d ++ [(k1, v)]).find? (fun p => p.1 == k) = some q := by
        rw [List.find?_append, hf]
        rfl
      rw [hq]
    | none =>
      rw [find?_append_of_none hf, List.find?_cons_of_neg _ (by simp [h])]
      rfl

/-- C10: when `mainColor` is absent or empty the resolved color is the bare
`"#"`, and that value is what `update_pubspec` stores as the icon background /
iOS background / splash colors and what the generated per-flavor generator
configuration files embed. -/
theorem c10_empty_main_color (mc : Option String) (h : mc = none ∨ mc = some "")
    (data : Pubspec) (hs : Bool) (flavor : String) :
    resolveMainColor mc = "#" ∧
    getVal (update_pubspec data (resolveMainColor mc) hs).flutterLauncherIcons
        "adaptive_icon_background" = some (.s "#") ∧
    getVal (update_pubspec data (resolveMainColor mc) hs).flutterLauncherIcons
        "background_color_ios" = some (.s "#") ∧
    getVal (update_pubspec data (resolveMainColor mc) hs).flutterNativeSplash
        "color" = some (.s "#") ∧
    getVal (update_pubspec data (resolveMainColor mc) hs).flutterNativeSplash
        "android_12" = some (.dict [("image", .s "splash.png"),
                                    ("icon_background_color", .s "#")]) ∧
    getVal (iconsCfg flavor (resolveMainColor mc)) "adaptive_icon_background" =
      some (.s "#") ∧
    getVal (iconsCfg flavor (resolveMainColor mc)) "background_color_ios" =
      some (.s "#") ∧
    getVal (splashCfg flavor (resolveMainColor mc)) "color" = some (.s "#") ∧
    getVal (splashCfg flavor (resolveMainColor mc)) "android_12" =
      some (.dict [("image", .s ("assets/configs/" ++ flavor ++ "/splash.png")),
                   ("icon_background_color", .s "#")]) := by
  have hmc : resolveMainColor mc = "#" := by
    rcases h with rfl | rfl <;> rfl
  rw [hmc]
  refine ⟨rfl, ?_, ?_, ?_, ?_, rfl, rfl, rfl, rfl⟩
  · simp only [update_pubspec, dictUpdate, List.foldl_cons, List.foldl_nil]
    rw [getVal_setKey_ne _ _ _ _ (by decide), getVal_setKey_ne _ _ _ _ (by decide),
      getVal_setKey_ne _ _ _ _ (by decide), getVal_setKey_ne _ _ _ _ (by decide),
      getVal_setKey_ne _ _ _ _ (by decide), getVal_setKey_self]
  · simp only [update_pubspec, dictUpdate, List.foldl_cons, List.foldl_nil]
    rw [getVal_setKey_self]
  · simp only [update_pubspec, dictUpdate, List.foldl_cons, List.foldl_nil]
    rw [getVal_setKey_ne _ _ _ _ (by decide), getVal_setKey_ne _ _ _ _ (by decide),
      getVal_setKey_ne _ _ _ _ (by decide), getVal_setKey_ne _ _ _ _ (by decide),
      getVal_setKey_ne _ _ _ _ (by decide), getVal_setKey_self]
  · simp only [update_pubspec, dictUpdate, List.foldl_cons, List.foldl_nil]
    rw [getVal_setKey_ne _ _ _ _ (by decide), getVal_setKey_ne _ _ _ _ (by decide),
      getVal_setKey_ne _ _ _ _ (by decide), getVal_setKey_self]

/-- C10 witness: a flavor config with no `mainColor` key. -/
theorem c10_empty_main_color_witness :
    ((none : Option String) = none ∨ (none : Option String) = some "") ∧
    resolveMainColor none = "#" ∧
    getVal (update_pubspec ⟨[], [], []⟩ (resolveMainColor none) true).flutterLauncherIcons
        "adaptive_icon_background" = some (.s "#") ∧
    getVal (iconsCfg "demo" (resolveMainColor none)) "adaptive_icon_background" =
      some (.s "#") := by
  have h := c10_empty_main_color none (Or.inl rfl) ⟨[], [], []⟩ true "demo"
  exact ⟨Or.inl rfl, h.1, h.2.1, h.2.2.2.2.2.1⟩

/-! ## The iOS `Info.plist` patch (`update_ios_config`, lines 337-354)

The three regexes of `update_ios_config` act on runs of the form
`<key>K</key>\s*<string>V</string>`; we embed the property list as the
document-ordered list of those key/string pairs.  Because the value pattern is
`[^<]+`, a pair matches only when its string value is NON-EMPTY; an entry with
an empty `<string></string>` body is left untouched by every substitution.
The display-name presence test is Python `in`, i.e. presence of the literal
`<key>CFBundleDisplayName</key>`, independent of the value. -/

/-- One `<key>…</key><string>…</string>` pair of the property list. -/
structure PlistEntry where
  key : String
  value : String
deriving DecidableEq, Repr

/-- Line 340-342: global substitution of
`<key>CFBundleIdentifier</key>\s*<string>[^<]+</string>`. -/
def replaceBundleIdentifier (entries : List PlistEntry) (package_name : String) :
    List PlistEntry :=
  entries.map fun e =>
    if e.key = "CFBundleIdentifier" ∧ e.value ≠ "" then
      { e with value := package_name }
    else e

/-- Line 344: the literal `<key>CFBundleDisplayName</key>` tested with
Python `in` against the content. -/
def hasDisplayName (entries : List PlistEntry) : Bool :=
  entries.any fun e => e.key == "CFBundleDisplayName"

/-- Lines 345-347: global substitution of the display-name pair. -/
def replaceDisplayName (entries : List PlistEntry) (app_name : String) :
    List PlistEntry :=
  entries.map fun e =>
    if e.key = "CFBundleDisplayName" ∧ e.value ≠ "" then
      { e with value := app_name }
    else e

/-- Lines 349-351: global substitution inserting a display-name pair right
after every matching bundle-identifier pair (capture group `\1`). -/
def insertDisplayNameAfterIdentifier (entries : List PlistEntry) (app_name : String) :
    List PlistEntry :=
  entries.flatMap fun e =>
    if e.key = "CFBundleIdentifier" ∧ e.value ≠ "" then
      [e, ⟨"CFBundleDisplayName", app_name⟩]
    else [e]

/-- Embeds `update_ios_config` (lines 337-354): patch the bundle identifier, then
either replace the existing display name or insert one after the identifier.
The display-name presence test runs on the content produced by the first
substitution. -/
def update_ios_config (entries : List PlistEntry) (package_name app_name : String) :
    List PlistEntry :=
  let c1 := replaceBundleIdentifier entries package_name
  if hasDisplayName c1 then replaceDisplayName c1 app_name
  else insertDisplayNameAfterIdentifier c1 app_name

/-- C6 counterexample: a property list whose `CFBundleDisplayName` has an
empty string value.  The pattern `<string>[^<]+</string>` cannot match it, so
its value is NOT replaced with the new display name (it stays empty), and
since the key is present no insertion happens either — contradicting the
claim for this input text. -/
theorem c6_ios_patch_cex :
    update_ios_config
        [⟨"CFBundleDisplayName", ""⟩, ⟨"CFBundleIdentifier", "com.example.old"⟩]
        "com.giolabs.demo" "Demo" =
      [⟨"CFBundleDisplayName", ""⟩, ⟨"CFBundleIdentifier", "com.giolabs.demo"⟩] ∧
    (update_ios_config
        [⟨"CFBundleDisplayName", ""⟩, ⟨"CFBundleIdentifier", "com.example.old"⟩]
        "com.giolabs.demo" "Demo").map PlistEntry.value ≠ ["Demo", "com.giolabs.demo"] := by
  constructor
  · rfl
  · intro h
    have h2 : (["", "com.giolabs.demo"] : List String) = ["Demo", "com.giolabs.demo"] := by
      have h1 : (update_ios_config
          [⟨"CFBundleDisplayName", ""⟩, ⟨"CFBundleIdentifier", "com.example.old"⟩]
          "com.giolabs.demo" "Demo").map PlistEntry.value = ["", "com.giolabs.demo"] := rfl
      exact h1.symm.trans h
    exact absurd h2 (by decide)

theorem hasDisplayName_replaceBundleIdentifier (entries : List PlistEntry)
    (package_name : String) :
    hasDisplayName (replaceBundleIdentifier entries package_name) =
      hasDisplayName entries := by
  induction entries with
  | nil => rfl
  | cons e rest ih =>
    unfold hasDisplayName replaceBundleIdentifier at *
    rw [List.map_cons, List.any_cons, List.any_cons, ih]
    by_cases he : e.key = "CFBundleIdentifier" ∧ e.value ≠ ""
    · rw [if_pos he]
    · rw [if_neg he]

theorem replace_both (package_name app_name : String) :
    ∀ (entries : List PlistEntry), (∀ e ∈ entries, e.value ≠ "") →
      replaceDisplayName (replaceBundleIdentifier entries package_name) app_name =
        entries.map fun e =>
          if e.key = "CFBundleIdentifier" then { e with value := package_name }
          else if e.key = "CFBundleDisplayName" then { e with value := app_name }
          else e := by
  intro entries
  induction entries with
  | nil => intro _; rfl
  | cons e rest ih =>
    intro hvals
    have hev : e.value ≠ "" := hvals e (List.mem_cons_self e rest)
    have hrest : ∀ x ∈ rest, x.value ≠ "" :=
      fun x hx => hvals x (List.mem_cons_of_mem e hx)
    by_cases hk : e.key = "CFBundleIdentifier"
    · have step1 : replaceBundleIdentifier (e :: rest) package_name =
          { e with value := package_name } :: replaceBundleIdentifier rest package_name := by
        unfold replaceBundleIdentifier
        rw [List.map_cons, if_pos ⟨hk, hev⟩]
      have step2 : replaceDisplayName
          ({ e with value := package_name } :: replaceBundleIdentifier rest package_name)
          app_name =
          { e with value := package_name } ::
            replaceDisplayName (replaceBundleIdentifier rest package_name) app_name := by
        unfold replaceDisplayName
        rw [List.map_cons, if_neg]
        intro hcon
        exact absurd (hk.symm.trans hcon.1) (by decide)
      rw [step1, step2, ih hrest, List.map_cons, if_pos hk]
    · have step1 : replaceBundleIdentifier (e :: rest) package_name =
          e :: replaceBundleIdentifier rest package_name := by
        unfold replaceBundleIdentifier
        rw [List.map_cons, if_neg (fun hcon => hk hcon.1)]
      rw [step1]
      by_cases hk2 : e.key = "CFBundleDisplayName"
      · have step2 : replaceDisplayName
            (e :: replaceBundleIdentifier rest package_name) app_name =
            { e with value := app_name } ::
              replaceDisplayName (replaceBundleIdentifier rest package_name) app_name := by
          unfold replaceDisplayName
          rw [List.map_cons, if_pos ⟨hk2, hev⟩]
        rw [step2, ih hrest, List.map_cons, if_neg hk, if_pos hk2]
      · have step2 : replaceDisplayName
            (e :: replaceBundleIdentifier rest package_name) app_name =
            e :: replaceDisplayName (replaceBundleIdentifier rest package_name) app_name := by
          unfold replaceDisplayName
          rw [List.map_cons, if_neg (fun hcon => hk2 hcon.1)]
        rw [step2, ih hrest, List.map_cons, if_neg hk, if_neg hk2]

theorem insert_after (package_name app_name : String) (hpn : package_name ≠ "") :
    ∀ (entries : List PlistEntry), (∀ e ∈ entries, e.value ≠ "") →
      insertDisplayNameAfterIdentifier (replaceBundleIdentifier entries package_name)
          app_name =
        entries.flatMap fun e =>
          if e.key = "CFBundleIdentifier" then
            [{ e with value := package_name }, ⟨"CFBundleDisplayName", app_name⟩]
          else [e] := by
  intro entries
  induction entries with
  | nil => intro _; rfl
  | cons e rest ih =>
    intro hvals
    have hev : e.value ≠ "" := hvals e (List.mem_cons_self e rest)
    have hrest : ∀ x ∈ rest, x.value ≠ "" :=
      fun x hx => hvals x (List.mem_cons_of_mem e hx)
    by_cases hk : e.key = "CFBundleIdentifier"
    · have step1 : replaceBundleIdentifier (e :: rest) package_name =
          { e with value := package_name } :: replaceBundleIdentifier rest package_name := by
        unfold replaceBundleIdentifier
        rw [List.map_cons, if_pos ⟨hk, hev⟩]
      have step2 : insertDisplayNameAfterIdentifier
          ({ e with value := package_name } :: replaceBundleIdentifier rest package_name)
          app_name =
          [{ e with value := package_name }, ⟨"CFBundleDisplayName", app_name⟩] ++
            insertDisplayNameAfterIdentifier (replaceBundleIdentifier rest package_name)
              app_name := by
        unfold insertDisplayNameAfterIdentifier
        rw [List.flatMap_cons, if_pos ⟨hk, hpn⟩]
      rw [step1, step2, ih hrest, List.flatMap_cons, if_pos hk]
    · have step1 : replaceBundleIdentifier (e :: rest) package_name =
          e :: replaceBundleIdentifier rest package_name := by
        unfold replaceBundleIdentifier
        rw [List.map_cons, if_neg (fun hcon => hk hcon.1)]
      have step2 : insertDisplayNameAfterIdentifier
          (e :: replaceBundleIdentifier rest package_name) app_name =
          [e] ++ insertDisplayNameAfterIdentifier
            (replaceBundleIdentifier rest package_name) app_name := by
        unfold insertDisplayNameAfterIdentifier
        rw [List.flatMap_cons, if_neg (fun hcon => hk hcon.1)]
      rw [step1, step2, ih hrest, List.flatMap_cons, if_neg hk]

/-- C6 amended: on a property list all of whose string values are non-empty
(the regex value pattern `[^<]+` requires this) and with a non-empty package
identifier, `update_ios_config` replaces every bundle-identifier value with
the package identifier, and: if a display-name key exists its value is
replaced with the new display name, otherwise a display-name pair is inserted
immediately after each bundle-identifier pair. -/
theorem c6_ios_patch (entries : List PlistEntry) (package_name app_name : String)
    (hvals : ∀ e ∈ entries, e.value ≠ "") (hpn : package_name ≠ "") :
    update_ios_config entries package_name app_name =
      if hasDisplayName entries then
        entries.map (fun e =>
          if e.key = "CFBundleIdentifier" then { e with value := package_name }
          else if e.key = "CFBundleDisplayName" then { e with value := app_name }
          else e)
      else
        entries.flatMap (fun e =>
          if e.key = "CFBundleIdentifier" then
            [{ e with value := package_name }, ⟨"CFBundleDisplayName", app_name⟩]
          else [e]) := by
  simp only [update_ios_config]
  rw [hasDisplayName_replaceBundleIdentifier]
  by_cases hd : hasDisplayName entries = true
  · rw [if_pos hd, if_pos hd]
    exact replace_both package_name app_name entries hvals
  · rw [if_neg hd, if_neg hd]
    exact insert_after package_name app_name hpn entries hvals

/-- C6 witness: a property list holding only a bundle identifier; the patch
replaces it and inserts the display name right after it. -/
theorem c6_ios_patch_witness :
    (∀ e ∈ ([⟨"CFBundleIdentifier", "com.example.app"⟩] : List PlistEntry),
      e.value ≠ "") ∧
    ("com.giolabs.demo" : String) ≠ "" ∧
    update_ios_config [⟨"CFBundleIdentifier", "com.example.app"⟩]
        "com.giolabs.demo" "Demo" =
      if hasDisplayName [⟨"CFBundleIdentifier", "com.example.app"⟩] then
        ([⟨"CFBundleIdentifier", "com.example.app"⟩] : List PlistEntry).map (fun e =>
          if e.key = "CFBundleIdentifier" then { e with value := "com.giolabs.demo" }
          else if e.key = "CFBundleDisplayName" then { e with value := "Demo" }
          else e)
      else
        ([⟨"CFBundleIdentifier", "com.example.app"⟩] : List PlistEntry).flatMap (fun e =>
          if e.key = "CFBundleIdentifier" then
            [{ e with value := "com.giolabs.demo" }, ⟨"CFBundleDisplayName", "Demo"⟩]
          else [e]) :=
  ⟨by decide, by decide,
    c6_ios_patch [⟨"CFBundleIdentifier", "com.example.app"⟩] "com.giolabs.demo"
      "Demo" (by decide) (by decide)⟩

/-! ## Images and `validate_image_dimensions` (lines 63-83) -/

/-- A raster image is observed only through its pixel dimensions. -/
structure Image where
  width : Nat
  height : Nat
deriving DecidableEq, Repr

/-- Constant `ICON_DIMENSIONS`, android adaptive_icon entry (line 29). -/
def ICON_DIMENSIONS_android_adaptive_icon : Nat := 1024

/-- Constant `SPLASH_DIMENSIONS`, android portrait entry (line 42). -/
def SPLASH_DIMENSIONS_android_portrait : Nat × Nat := (1242, 2436)

/-- Embeds `validate_image_dimensions` (lines 63-83): a tuple requirement checks the
two minima; an integer requirement additionally requires a square image. -/
def validate_image_dimensions (img : Image) (required_dimensions : Nat ⊕ (Nat × Nat)) :
    Bool :=
  match required_dimensions with
  | Sum.inr (min_width, min_height) =>
    if img.width < min_width ∨ img.height < min_height then false
    else true
  | Sum.inl required =>
    if img.width < required ∨ img.height < required then false
    else if img.width ≠ img.height then false
    else true

theorem validate_inl_true_iff (img : Image) (m : Nat) :
    validate_image_dimensions img (Sum.inl m) = true ↔
      m ≤ img.width ∧ m ≤ img.height ∧ img.width = img.height := by
  simp only [validate_image_dimensions]
  split_ifs with h1 h2
  · constructor
    · intro h
      simp at h
    · intro h
      omega
  · constructor
    · intro h
      simp at h
    · intro h
      exact absurd h.2.2 h2
  · constructor
    · intro _
      have h3 : img.width = img.height := not_not.mp h2
      exact ⟨by omega, by omega, h3⟩
    · intro _
      rfl

theorem validate_inr_true_iff (img : Image) (mw mh : Nat) :
    validate_image_dimensions img (Sum.inr (mw, mh)) = true ↔
      mw ≤ img.width ∧ mh ≤ img.height := by
  simp only [validate_image_dimensions]
  split_ifs with h1
  · constructor
    · intro h
      simp at h
    · intro h
      omega
  · constructor
    · intro _
      exact ⟨by omega, by omega⟩
    · intro _
      rfl

/-! ## The Android resource tree

Directories under the two resource roots are modelled as
`(resource-root, directory-name)` pairs, the relocated configuration files as
`(resource-root, relative-path)` pairs; path equality is directory identity
(`Path.resolve()` normalizes the override before comparison). -/

/-- From `move_assets_to_flavor`, line 224: `main_res`, the default resource root
`android/app/src/main/res` under the project root. -/
def MAIN_RES : String := "android/app/src/main/res"

/-- Line 53: `ANDROID_RES_DEFAULT`, the same default resource root path
constant of the script header. -/
def ANDROID_RES_DEFAULT : String := "android/app/src/main/res"

/-- Python `"mipmap" in child.name`: substring containment. -/
def strContains (haystack needle : String) : Bool :=
  decide (needle.toList <:+: haystack.toList)

/-- Python `prefix in name` tested via `glob`: `name` starts with the literal
pattern prefix. -/
def strStartsWith (s pre : String) : Bool :=
  List.isPrefixOf pre.toList s.toList

/-- Embeds `clean_previous_assets` (lines 113-124): delete every child directory of
the target resource root whose name contains `"mipmap"`.  (The iOS asset
catalog reset only touches the catalogs whose contents are abstracted by the
verification flags of the run environment.) -/
def clean_previous_assets (android_res_path : String)
    (dirs : List (String × String)) : List (String × String) :=
  dirs.filter fun q =>
    !(q.1 == android_res_path && strContains q.2 "mipmap")

/-- Modelled from the spec: the two external generator commands (dart
`flutter_launcher_icons` and `flutter_native_splash:create`, invoked by
`generate_and_run`) create the density-variant `mipmap-*` directories under
the default resource root, replacing same-named directories. -/
def applyGenerators (generated : List String) (dirs : List (String × String)) :
    List (String × String) :=
  (dirs.filter fun q => !(q.1 == MAIN_RES && generated.contains q.2)) ++
    generated.map (fun n => (MAIN_RES, n))

/-- From `move_assets_to_flavor`, line 230: the `main_res.glob` snapshot for the
pattern `mipmap-*` — names of directories under the default root starting
with `mipmap-`. -/
def mipmapSnapshot (dirs : List (String × String)) : List String :=
  (dirs.filter fun q => q.1 == MAIN_RES && strStartsWith q.2 "mipmap-").map
    (fun q => q.2)

/-- One iteration of the mipmap-move loop (lines 231-236): if the source
still exists, delete a pre-existing destination (`shutil.rmtree(dest_dir)`)
and then `shutil.move` the source.  When destination and source are the same
directory, the deletion destroys the source and `shutil.move` raises
`FileNotFoundError`; the error value carries the directories at that point. -/
def moveOneMipmap (android_res_path : String) (dirs : List (String × String))
    (name : String) : Except (List (String × String)) (List (String × String)) :=
  if (MAIN_RES, name) ∈ dirs then
    let dirs1 := if (android_res_path, name) ∈ dirs then
      dirs.filter (fun q => q ≠ (android_res_path, name)) else dirs
    if (MAIN_RES, name) ∈ dirs1 then
      Except.ok (dirs1.filter (fun q => q ≠ (MAIN_RES, name)) ++
        [(android_res_path, name)])
    else Except.error dirs1
  else Except.ok dirs

/-- The mipmap-move loop over the snapshot; an uncaught exception aborts the
remaining iterations. -/
def moveMipmapsGo (android_res_path : String) :
    List (String × String) → List String →
      Except (List (String × String)) (List (String × String))
  | dirs, [] => Except.ok dirs
  | dirs, n :: rest =>
    match moveOneMipmap android_res_path dirs n with
    | Except.error d => Except.error d
    | Except.ok d => moveMipmapsGo android_res_path d rest

/-- Lines 229-236 of `move_assets_to_flavor`. -/
def moveMipmaps (android_res_path : String) (dirs : List (String × String)) :
    Except (List (String × String)) (List (String × String)) :=
  moveMipmapsGo android_res_path dirs (mipmapSnapshot dirs)

/-- From `move_assets_to_flavor`, lines 239-247: the named configuration resource
files. -/
def RES_CONFIG_FILES : List String :=
  ["values/colors.xml",
   "drawable/launch_background.xml",
   "drawable-v21/launch_background.xml",
   "values/styles.xml",
   "values-night/styles.xml",
   "values-v31/styles.xml",
   "values-night-v31/styles.xml"]

/-- Lines 249-255: move each configuration file if present (`shutil.move` on
a file overwrites an existing destination; moving a file onto itself is a
no-op rename). -/
def moveConfigFiles (android_res_path : String)
    (files : List (String × String)) : List (String × String) :=
  RES_CONFIG_FILES.foldl
    (fun fs rel =>
      if (MAIN_RES, rel) ∈ fs then
        fs.filter (fun q => q ≠ (MAIN_RES, rel) ∧ q ≠ (android_res_path, rel)) ++
          [(android_res_path, rel)]
      else fs)
    files

/-! ## The whole run (`main`, lines 371-409) -/

/-- Everything `main` observes from outside: CLI arguments, the flavor
config, the source image dimensions, the external generator outcome and
output, and the state of the iOS asset catalogs at verification time. -/
structure RunEnv where
  flavor : String
  androidResPathArg : Option String
  configExists : Bool
  mainColorField : Option String
  appNameField : Option String
  configAssets : List String
  icon : Option Image
  splash : Option Image
  generatorsOk : Bool
  generatedMipmaps : List String
  iosAppIconOk : Bool
  iosLaunchImageOk : Bool
deriving Repr

/-- The mutable file-system state the claims talk about. -/
structure RunState where
  pubspec : Pubspec
  dirs : List (String × String)
  files : List (String × String)
  plist : List PlistEntry
  genIconsCfg : Option (List (String × Val))
  genSplashCfg : Option (List (String × Val))
  tmpIconStaged : Bool
  tmpSplashStaged : Bool
deriving Repr

/-- Result of a run: process exit code, final state, whether the
temporary-file cleanup step ran, and which advisory verification diagnostics
were logged as errors. -/
structure RunOutcome where
  exitCode : Nat
  state : RunState
  cleanupRan : Bool
  appIconError : Bool
  launchImageError : Bool
deriving Repr

/-- A fatal exit (`sys.exit(1)` or an uncaught exception): non-zero status,
no further step runs. -/
def failOutcome (st : RunState) : RunOutcome :=
  { exitCode := 1, state := st, cleanupRan := false,
    appIconError := false, launchImageError := false }

/-- Embeds `main` (lines 371-409): the ordered workflow.  `clean_previous_app_data`
and `update_android_config` touch only build caches / Android text files
outside the modelled state.  The `has_splash` argument of `update_pubspec` is
the staged-splash flag, true at that point because `splash.png` was just
copied to the project root. -/
def runMain (env : RunEnv) (st : RunState) : RunOutcome :=
  if env.configExists then
    let main_color := resolveMainColor env.mainColorField
    let app_name := resolveAppName env.appNameField env.flavor
    let package_name := derivePackageName env.flavor
    let android_res_path := env.androidResPathArg.getD ANDROID_RES_DEFAULT
    let st1 := { st with dirs := clean_previous_assets android_res_path st.dirs }
    match env.icon with
    | none => failOutcome st1
    | some icon =>
      if validate_image_dimensions icon (Sum.inl ICON_DIMENSIONS_android_adaptive_icon) then
        match env.splash with
        | none => failOutcome st1
        | some splash =>
          if validate_image_dimensions splash (Sum.inr SPLASH_DIMENSIONS_android_portrait) then
            let st2 := { st1 with tmpIconStaged := true, tmpSplashStaged := true }
            let st3 := { st2 with
              pubspec := generate_pubspec_assets env.flavor env.configAssets st2.pubspec }
            let st4 := { st3 with
              pubspec := update_pubspec st3.pubspec main_color st3.tmpSplashStaged }
            let st5 := { st4 with
              genIconsCfg := some (iconsCfg env.flavor main_color),
              genSplashCfg := some (splashCfg env.flavor main_color) }
            if env.generatorsOk then
              let st6 := { st5 with dirs := applyGenerators env.generatedMipmaps st5.dirs }
              match moveMipmaps android_res_path st6.dirs with
              | Except.error dirsAtRaise => failOutcome { st6 with dirs := dirsAtRaise }
              | Except.ok movedDirs =>
                let st7 := { st6 with
                  dirs := movedDirs,
                  files := moveConfigFiles android_res_path st6.files }
                let st8 := { st7 with
                  plist := update_ios_config st7.plist package_name app_name }
                let st9 := { st8 with tmpIconStaged := false, tmpSplashStaged := false }
                { exitCode := 0, state := st9, cleanupRan := true,
                  appIconError := !env.iosAppIconOk,
                  launchImageError := !env.iosLaunchImageOk }
            else failOutcome st5
          else failOutcome st1
      else failOutcome st1
  else failOutcome st

/-- C2: a run whose icon is narrower or shorter than 1024 px or non-square,
or whose splash is smaller than 1242x2436 px, exits with non-zero status and
leaves the shared manifest (`pubspec.yaml`) exactly as it was: image
validation precedes both manifest-writing steps. -/
theorem c2_validation_before_manifest (env : RunEnv) (st : RunState)
    (h : (∃ i, env.icon = some i ∧
            (i.width < 1024 ∨ i.height < 1024 ∨ i.width ≠ i.height)) ∨
         (∃ s, env.splash = some s ∧ (s.width < 1242 ∨ s.height < 2436))) :
    (runMain env st).exitCode ≠ 0 ∧ (runMain env st).state.pubspec = st.pubspec := by
  by_cases hc : env.configExists = true
  case neg =>
    have hc2 : env.configExists = false := by
      cases hcc : env.configExists
      · rfl
      · exact absurd hcc hc
    simp [runMain, hc2, failOutcome]
  case pos =>
    cases hi : env.icon with
    | none => simp [runMain, hc, hi, failOutcome]
    | some i =>
      by_cases hv :
          validate_image_dimensions i (Sum.inl ICON_DIMENSIONS_android_adaptive_icon) = true
      · have hgood := (validate_inl_true_iff i _).mp hv
        rw [ICON_DIMENSIONS_android_adaptive_icon] at hgood
        rcases h with ⟨i2, hi2, hbad⟩ | ⟨s, hs, hbad⟩
        · rw [hi] at hi2
          injection hi2 with he
          subst he
          omega
        · cases hsp : env.splash with
          | none => simp [runMain, hc, hi, hv, hsp, failOutcome]
          | some s2 =>
            rw [hsp] at hs
            injection hs with he
            subst he
            have hsv : validate_image_dimensions s2
                (Sum.inr SPLASH_DIMENSIONS_android_portrait) = false := by
              cases hvv : validate_image_dimensions s2
                  (Sum.inr SPLASH_DIMENSIONS_android_portrait)
              · rfl
              · exfalso
                have := (validate_inr_true_iff s2 1242 2436).mp
                  (by rw [← hvv]; rfl)
                omega
            simp [runMain, hc, hi, hv, hsp, hsv, failOutcome]
      · have hv2 : validate_image_dimensions i
            (Sum.inl ICON_DIMENSIONS_android_adaptive_icon) = false := by
          cases hvv : validate_image_dimensions i
              (Sum.inl ICON_DIMENSIONS_android_adaptive_icon)
          · rfl
          · exact absurd hvv hv
        simp [runMain, hc, hi, hv2, failOutcome]

/-- An empty project state shared by the concrete run scenarios. -/
def st0 : RunState :=
  { pubspec := ⟨[], [], []⟩, dirs := [], files := [], plist := [],
    genIconsCfg := none, genSplashCfg := none,
    tmpIconStaged := false, tmpSplashStaged := false }

/-- A run whose icon is 512x512, everything else valid. -/
def envSmallIcon : RunEnv :=
  { flavor := "demo", androidResPathArg := none, configExists := true,
    mainColorField := some "1A2B3C", appNameField := none, configAssets := [],
    icon := some ⟨512, 512⟩, splash := some ⟨1242, 2436⟩, generatorsOk := true,
    generatedMipmaps := [], iosAppIconOk := true, iosLaunchImageOk := true }

/-- C2 witness: the 512x512 icon makes the run exit non-zero with the
manifest untouched. -/
theorem c2_validation_before_manifest_witness :
    (∃ i, envSmallIcon.icon = some i ∧
      (i.width < 1024 ∨ i.height < 1024 ∨ i.width ≠ i.height)) ∧
    (runMain envSmallIcon st0).exitCode ≠ 0 ∧
    (runMain envSmallIcon st0).state.pubspec = st0.pubspec :=
  ⟨⟨⟨512, 512⟩, rfl, Or.inl (by decide)⟩,
    c2_validation_before_manifest envSmallIcon st0
      (Or.inl ⟨⟨512, 512⟩, rfl, Or.inl (by decide)⟩)⟩

/-! ### Behaviour of the mipmap-move loop when the flavor root differs from
the default root -/

theorem moveOneMipmap_spec (p : String) (hp : p ≠ MAIN_RES)
    (dirs : List (String × String)) (n : String) (hsrc : (MAIN_RES, n) ∈ dirs) :
    ∃ R, moveOneMipmap p dirs n = Except.ok R ∧
      (p, n) ∈ R ∧ (MAIN_RES, n) ∉ R ∧
      (∀ m, m ≠ n →
        (((MAIN_RES, m) ∈ R) ↔ (MAIN_RES, m) ∈ dirs) ∧
        (((p, m) ∈ R) ↔ (p, m) ∈ dirs)) := by
  have hne : ((MAIN_RES, n) : String × String) ≠ (p, n) := by
    intro he
    exact hp (congrArg Prod.fst he).symm
  simp only [moveOneMipmap]
  rw [if_pos hsrc]
  by_cases hdest : ((p, n) : String × String) ∈ dirs
  · rw [if_pos hdest,
      if_pos (List.mem_filter.mpr ⟨hsrc, by simp [hne]⟩)]
    refine ⟨_, rfl, ?_, ?_, ?_⟩
    · exact List.mem_append_right _ (List.mem_singleton.mpr rfl)
    · intro hmem
      rcases List.mem_append.mp hmem with hl | hr
      · have := (List.mem_filter.mp hl).2
        simp at this
      · exact hne (List.mem_singleton.mp hr)
    · intro m hm
      have h1 : ((MAIN_RES, m) : String × String) ≠ (p, n) := by
        intro he
        exact hp (congrArg Prod.fst he).symm
      have h2 : ((MAIN_RES, m) : String × String) ≠ (MAIN_RES, n) := by
        intro he
        exact hm (congrArg Prod.snd he)
      have h3 : ((p, m) : String × String) ≠ (MAIN_RES, n) := by
        intro he
        exact hp (congrArg Prod.fst he)
      have h4 : ((p, m) : String × String) ≠ (p, n) := by
        intro he
        exact hm (congrArg Prod.snd he)
      constructor
      · simp [List.mem_append, List.mem_filter, h1, h2]
      · simp [List.mem_append, List.mem_filter, h3, h4]
  · rw [if_neg hdest, if_pos hsrc]
    refine ⟨_, rfl, ?_, ?_, ?_⟩
    · exact List.mem_append_right _ (List.mem_singleton.mpr rfl)
    · intro hmem
      rcases List.mem_append.mp hmem with hl | hr
      · have := (List.mem_filter.mp hl).2
        simp at this
      · exact hne (List.mem_singleton.mp hr)
    · intro m hm
      have h2 : ((MAIN_RES, m) : String × String) ≠ (MAIN_RES, n) := by
        intro he
        exact hm (congrArg Prod.snd he)
      have h3 : ((p, m) : String × String) ≠ (MAIN_RES, n) := by
        intro he
        exact hp (congrArg Prod.fst he)
      have h4 : ((p, m) : String × String) ≠ (p, n) := by
        intro he
        exact hm (congrArg Prod.snd he)
      have h1 : ((MAIN_RES, m) : String × String) ≠ (p, n) := by
        intro he
        exact hp (congrArg Prod.fst he).symm
      constructor
      · constructor
        · intro hmem
          rcases List.mem_append.mp hmem with hl | hr
          · exact (List.mem_filter.mp hl).1
          · exact absurd (List.mem_singleton.mp hr) h1
        · intro hmem
          exact List.mem_append_left _ (List.mem_filter.mpr ⟨hmem, by simp [h2]⟩)
      · constructor
        · intro hmem
          rcases List.mem_append.mp hmem with hl | hr
          · exact (List.mem_filter.mp hl).1
          · exact absurd (List.mem_singleton.mp hr) h4
        · intro hmem
          exact List.mem_append_left _ (List.mem_filter.mpr ⟨hmem, by simp [h3]⟩)

theorem moveMipmapsGo_spec (p : String) (hp : p ≠ MAIN_RES) :
    ∀ (names : List String) (dirs : List (String × String)),
      names.Nodup → (∀ n ∈ names, (MAIN_RES, n) ∈ dirs) →
      ∃ R, moveMipmapsGo p dirs names = Except.ok R ∧
        (∀ n ∈ names, (p, n) ∈ R ∧ (MAIN_RES, n) ∉ R) ∧
        (∀ m, m ∉ names →
          (((MAIN_RES, m) ∈ R) ↔ (MAIN_RES, m) ∈ dirs) ∧
          (((p, m) ∈ R) ↔ (p, m) ∈ dirs)) := by
  intro names
  induction names with
  | nil =>
    intro dirs _ _
    exact ⟨dirs, rfl, by simp, fun m _ => ⟨Iff.rfl, Iff.rfl⟩⟩
  | cons n rest ih =>
    intro dirs hnd hsrc
    obtain ⟨R1, hR1, hpmem, hmnot, hiff⟩ :=
      moveOneMipmap_spec p hp dirs n (hsrc n (List.mem_cons_self n rest))
    have hndrest : rest.Nodup := (List.nodup_cons.mp hnd).2
    have hnin : n ∉ rest := (List.nodup_cons.mp hnd).1
    have hsrc1 : ∀ m ∈ rest, (MAIN_RES, m) ∈ R1 := by
      intro m hm
      have hmn : m ≠ n := fun he => hnin (he ▸ hm)
      exact ((hiff m hmn).1).mpr (hsrc m (List.mem_cons_of_mem n hm))
    obtain ⟨R, hR, hmoved, hkeep⟩ := ih R1 hndrest hsrc1
    refine ⟨R, ?_, ?_, ?_⟩
    · simp only [moveMipmapsGo]
      rw [hR1]
      exact hR
    · intro m hm
      rcases List.mem_cons.mp hm with rfl | hmrest
      · refine ⟨((hkeep m hnin).2).mpr hpmem, fun hc => hmnot (((hkeep m hnin).1).mp hc)⟩
      · exact hmoved m hmrest
    · intro m hm
      have hmn : m ≠ n := fun he => hm (he ▸ List.mem_cons_self n rest)
      have hmrest : m ∉ rest := fun hc => hm (List.mem_cons_of_mem n hc)
      exact ⟨((hkeep m hmrest).1).trans ((hiff m hmn).1),
        ((hkeep m hmrest).2).trans ((hiff m hmn).2)⟩

theorem mem_mipmapSnapshot (dirs : List (String × String)) (n : String) :
    n ∈ mipmapSnapshot dirs ↔
      (MAIN_RES, n) ∈ dirs ∧ strStartsWith n "mipmap-" = true := by
  unfold mipmapSnapshot
  constructor
  · intro h
    obtain ⟨q, hq, hqn⟩ := List.mem_map.mp h
    obtain ⟨hqmem, hcond⟩ := List.mem_filter.mp hq
    rw [Bool.and_eq_true] at hcond
    have h1 : q.1 = MAIN_RES := by
      have := hcond.1
      simpa using this
    have h2 : strStartsWith q.2 "mipmap-" = true := hcond.2
    have hq2 : q = (MAIN_RES, n) := by
      cases q
      simp only at h1 hqn
      rw [h1, hqn]
    exact ⟨hq2 ▸ hqmem, hqn ▸ h2⟩
  · rintro ⟨hmem, hpre⟩
    exact List.mem_map.mpr
      ⟨(MAIN_RES, n), List.mem_filter.mpr ⟨hmem, by simp [hpre]⟩, rfl⟩

theorem mipmapSnapshot_nodup (dirs : List (String × String)) (h : dirs.Nodup) :
    (mipmapSnapshot dirs).Nodup := by
  unfold mipmapSnapshot
  apply List.Nodup.map_on ?_ (h.filter _)
  intro x hx y hy hxy
  have hx1 : x.1 = MAIN_RES := by
    have := (Bool.and_eq_true _ _).mp (List.mem_filter.mp hx).2
    simpa using this.1
  have hy1 : y.1 = MAIN_RES := by
    have := (Bool.and_eq_true _ _).mp (List.mem_filter.mp hy).2
    simpa using this.1
  cases x
  cases y
  simp only at hx1 hy1 hxy
  rw [hx1, hy1, hxy]

theorem applyGenerators_nodup (generated : List String)
    (dirs : List (String × String)) (hg : generated.Nodup) (hd : dirs.Nodup) :
    (applyGenerators generated dirs).Nodup := by
  unfold applyGenerators
  refine List.Nodup.append (hd.filter _)
    (hg.map fun a b hab => congrArg Prod.snd hab) ?_
  intro x hx1 hx2
  obtain ⟨n, hn, rfl⟩ := List.mem_map.mp hx2
  have hcond := (List.mem_filter.mp hx1).2
  simp at hcond
  exact hcond hn

/-- Reduction of `runMain` along the all-fatal-steps-succeed path: when the
config exists, both images validate, the generators succeed and the mipmap
move returns normally, the run reaches the end of `main`: exit 0, the cleanup
step runs (unstaging both temporary images), and the verification step only
records diagnostics. -/
theorem runMain_ok_branch (env : RunEnv) (st : RunState) (icon splash : Image)
    (p : String) (R : List (String × String))
    (hc : env.configExists = true)
    (hi : env.icon = some icon)
    (hvi : validate_image_dimensions icon
      (Sum.inl ICON_DIMENSIONS_android_adaptive_icon) = true)
    (hs : env.splash = some splash)
    (hvs : validate_image_dimensions splash
      (Sum.inr SPLASH_DIMENSIONS_android_portrait) = true)
    (hg : env.generatorsOk = true)
    (hap : env.androidResPathArg.getD ANDROID_RES_DEFAULT = p)
    (hok : moveMipmaps p
      (applyGenerators env.generatedMipmaps (clean_previous_assets p st.dirs)) =
        Except.ok R) :
    (runMain env st).exitCode = 0 ∧
    (runMain env st).state.dirs = R ∧
    (runMain env st).cleanupRan = true ∧
    (runMain env st).appIconError = !env.iosAppIconOk ∧
    (runMain env st).launchImageError = !env.iosLaunchImageOk ∧
    (runMain env st).state.tmpIconStaged = false ∧
    (runMain env st).state.tmpSplashStaged = false := by
  simp only [runMain, hc, hi, hvi, hs, hvs, hg, hap, if_true]
  rw [hok]
  exact ⟨rfl, rfl, rfl, rfl, rfl, rfl, rfl⟩

/-- C1 amended: for a valid full run in which the flavor resource root given
by `--android-res-path` is a directory DIFFERENT from the default resource
root, the run exits 0 and every density-variant directory produced by the
generator ends up under the flavor root and is gone from the default root. -/
theorem c1_relocation_transfers_ownership (env : RunEnv) (st : RunState)
    (icon splash : Image) (p : String)
    (hc : env.configExists = true)
    (hi : env.icon = some icon)
    (hvi : validate_image_dimensions icon
      (Sum.inl ICON_DIMENSIONS_android_adaptive_icon) = true)
    (hs : env.splash = some splash)
    (hvs : validate_image_dimensions splash
      (Sum.inr SPLASH_DIMENSIONS_android_portrait) = true)
    (hg : env.generatorsOk = true)
    (hpa : env.androidResPathArg = some p)
    (hpd : p ≠ ANDROID_RES_DEFAULT)
    (hnd : st.dirs.Nodup)
    (hgnd : env.generatedMipmaps.Nodup)
    (hpre : ∀ n ∈ env.generatedMipmaps, strStartsWith n "mipmap-" = true) :
    (runMain env st).exitCode = 0 ∧
    ∀ n ∈ env.generatedMipmaps,
      (p, n) ∈ (runMain env st).state.dirs ∧
      (ANDROID_RES_DEFAULT, n) ∉ (runMain env st).state.dirs := by
  have hp : p ≠ MAIN_RES := fun he => hpd (by rw [he]; rfl)
  have hnd2 : (applyGenerators env.generatedMipmaps
      (clean_previous_assets p st.dirs)).Nodup :=
    applyGenerators_nodup _ _ hgnd (hnd.filter _)
  obtain ⟨R, hR, hmoved, _⟩ := moveMipmapsGo_spec p hp
    (mipmapSnapshot (applyGenerators env.generatedMipmaps
      (clean_previous_assets p st.dirs)))
    (applyGenerators env.generatedMipmaps (clean_previous_assets p st.dirs))
    (mipmapSnapshot_nodup _ hnd2)
    (fun n hn => ((mem_mipmapSnapshot _ _).mp hn).1)
  have hok : moveMipmaps p
      (applyGenerators env.generatedMipmaps (clean_previous_assets p st.dirs)) =
        Except.ok R := hR
  obtain ⟨he, hdirs, _, _, _, _, _⟩ := runMain_ok_branch env st icon splash p R
    hc hi hvi hs hvs hg (by rw [hpa]; rfl) hok
  refine ⟨he, fun n hn => ?_⟩
  have hmem : ((MAIN_RES, n) : String × String) ∈
      applyGenerators env.generatedMipmaps (clean_previous_assets p st.dirs) := by
    unfold applyGenerators
    exact List.mem_append_right _ (List.mem_map.mpr ⟨n, hn, rfl⟩)
  have hsnap : n ∈ mipmapSnapshot (applyGenerators env.generatedMipmaps
      (clean_previous_assets p st.dirs)) :=
    (mem_mipmapSnapshot _ _).mpr ⟨hmem, hpre n hn⟩
  have h2 := hmoved n hsnap
  rw [hdirs]
  exact ⟨h2.1, h2.2⟩

/-- A full valid run for flavor `demo` with NO `--android-res-path` override:
the generator produces `mipmap-hdpi` under the default resource root. -/
def envC1 : RunEnv :=
  { flavor := "demo", androidResPathArg := none, configExists := true,
    mainColorField := some "1A2B3C", appNameField := none, configAssets := [],
    icon := some ⟨1024, 1024⟩, splash := some ⟨1242, 2436⟩, generatorsOk := true,
    generatedMipmaps := ["mipmap-hdpi"], iosAppIconOk := true,
    iosLaunchImageOk := true }

/-- C1 counterexample: with no override the flavor resource root IS the
default root, so for the generated `mipmap-hdpi` the relocation loop first
`shutil.rmtree`s the destination — which is the source itself — and then
`shutil.move` raises `FileNotFoundError`: the run exits non-zero (not 0), the
density directory survives under NEITHER root, and the cleanup step is
skipped. -/
theorem c1_default_path_cex :
    (runMain envC1 st0).exitCode ≠ 0 ∧
    (ANDROID_RES_DEFAULT, "mipmap-hdpi") ∉ (runMain envC1 st0).state.dirs ∧
    (runMain envC1 st0).cleanupRan = false := by
  decide

/-- The same valid run with an override naming a flavor-specific root. -/
def envC1b : RunEnv :=
  { envC1 with androidResPathArg := some "android/app/src/demo/res" }

/-- C1 witness: with the distinct flavor root the run exits 0 and
`mipmap-hdpi` is only under the flavor root. -/
theorem c1_relocation_transfers_ownership_witness :
    envC1b.configExists = true ∧
    envC1b.androidResPathArg = some "android/app/src/demo/res" ∧
    ("android/app/src/demo/res" : String) ≠ ANDROID_RES_DEFAULT ∧
    (runMain envC1b st0).exitCode = 0 ∧
    (∀ n ∈ envC1b.generatedMipmaps,
      ("android/app/src/demo/res", n) ∈ (runMain envC1b st0).state.dirs ∧
      (ANDROID_RES_DEFAULT, n) ∉ (runMain envC1b st0).state.dirs) :=
  ⟨rfl, rfl, by decide,
    (c1_relocation_transfers_ownership envC1b st0 ⟨1024, 1024⟩ ⟨1242, 2436⟩
      "android/app/src/demo/res" rfl rfl (by decide) rfl (by decide) rfl rfl
      (by decide) (by decide) (by decide) (by decide)).1,
    (c1_relocation_transfers_ownership envC1b st0 ⟨1024, 1024⟩ ⟨1242, 2436⟩
      "android/app/src/demo/res" rfl rfl (by decide) rfl (by decide) rfl rfl
      (by decide) (by decide) (by decide) (by decide)).2⟩

set_option linter.unusedVariables false in
/-- C7: when config load, image validation and the external generation all
succeed and the relocation step returns normally, a failing iOS asset
verification only logs error diagnostics: the run still reaches the
temporary-file cleanup (both staged images are removed) and exits 0.  (The
`hfail` antecedent is the "verification fails" event of the claim; the
conclusion
records the logged diagnostics explicitly.) -/
theorem c7_verification_advisory (env : RunEnv) (st : RunState)
    (icon splash : Image) (p : String) (R : List (String × String))
    (hc : env.configExists = true)
    (hi : env.icon = some icon)
    (hvi : validate_image_dimensions icon
      (Sum.inl ICON_DIMENSIONS_android_adaptive_icon) = true)
    (hs : env.splash = some splash)
    (hvs : validate_image_dimensions splash
      (Sum.inr SPLASH_DIMENSIONS_android_portrait) = true)
    (hg : env.generatorsOk = true)
    (hap : env.androidResPathArg.getD ANDROID_RES_DEFAULT = p)
    (hok : moveMipmaps p
      (applyGenerators env.generatedMipmaps (clean_previous_assets p st.dirs)) =
        Except.ok R)
    (hfail : env.iosAppIconOk = false ∨ env.iosLaunchImageOk = false) :
    (runMain env st).exitCode = 0 ∧
    (runMain env st).cleanupRan = true ∧
    (runMain env st).state.tmpIconStaged = false ∧
    (runMain env st).state.tmpSplashStaged = false ∧
    (runMain env st).appIconError = !env.iosAppIconOk ∧
    (runMain env st).launchImageError = !env.iosLaunchImageOk := by
  obtain ⟨he, _, hclean, hic, hli, ht1, ht2⟩ := runMain_ok_branch env st icon
    splash p R hc hi hvi hs hvs hg hap hok
  exact ⟨he, hclean, ht1, ht2, hic, hli⟩

/-- A valid run (distinct flavor root, no generated mipmaps tracked) whose
iOS `AppIcon.appiconset` verification fails. -/
def envC7 : RunEnv :=
  { flavor := "demo", androidResPathArg := some "android/app/src/demo/res",
    configExists := true, mainColorField := some "1A2B3C", appNameField := none,
    configAssets := [], icon := some ⟨1024, 1024⟩, splash := some ⟨1242, 2436⟩,
    generatorsOk := true, generatedMipmaps := [], iosAppIconOk := false,
    iosLaunchImageOk := true }

/-- C7 witness: the empty icon-set only yields a logged diagnostic; the run
exits 0 and the cleanup runs. -/
theorem c7_verification_advisory_witness :
    envC7.iosAppIconOk = false ∧
    (runMain envC7 st0).exitCode = 0 ∧
    (runMain envC7 st0).cleanupRan = true ∧
    (runMain envC7 st0).appIconError = true := by
  have h := c7_verification_advisory envC7 st0 ⟨1024, 1024⟩ ⟨1242, 2436⟩
    "android/app/src/demo/res" [] rfl rfl (by decide) rfl (by decide) rfl rfl
    rfl (Or.inl rfl)
  exact ⟨rfl, h.1, h.2.1, by rw [h.2.2.2.2.1]; rfl⟩

end Branding
